import Mathlib

/-!
Verification of the CN-mirror Dockerfile generator.

The program is a pure string-generation utility: it parses a `distro:version`
image reference, looks the distro up in a fixed registry, and renders a
three-line Dockerfile whose RUN line is a compound shell command joined with
a success-chaining operator.  We embed the registry and the rendering
functions over Lean `String` (whose `data` field is a `List Char` in this
toolchain) and prove the claimed properties.

Modelling conventions:
* `print(..., file=sys.stderr)` followed by `raise SystemExit(code)` is
  embedded as an `Except` error value carrying the exit code (and, where a
  claim is about the message, the message text).
* Python truthiness of an optional/`str` value (`mirror_override or
  cfg.proxyurl`, `if cfg.docker_path:`) is embedded explicitly: `none` and
  the empty string are falsy.
* Python `str.strip` / `str.lower` / `str.isdigit` are embedded at the ASCII
  level (the registry keys, versions, and URLs the tool manipulates are
  ASCII); `Char.toLower` and `Char.isDigit` are the ASCII maps.
-/

/-! ## Generic list/string infrastructure -/

/-- Characters stripped by Python `str.strip()` (ASCII whitespace). -/
def pyIsSpace (c : Char) : Bool :=
  c = ' ' || c = '\t' || c = '\n' || c = '\r' || c = '\x0b' || c = '\x0c'

/-- Python `str.strip()`: drop ASCII whitespace from both ends. -/
def pyStrip (s : List Char) : List Char :=
  ((s.dropWhile pyIsSpace).reverse.dropWhile pyIsSpace).reverse

/-- The part of `s` strictly before the first occurrence of `sep`
(the whole of `s` when `sep` does not occur): Python `s.split(sep, 1)[0]`. -/
def splitHead (sep : Char) : List Char → List Char
  | [] => []
  | c :: cs => if c = sep then [] else c :: splitHead sep cs

/-- Split at the LAST occurrence of `sep`, Python `s.rsplit(sep, 1)`:
`some (before, after)` when `sep` occurs, `none` otherwise. -/
def rsplitLast (sep : Char) : List Char → Option (List Char × List Char)
  | [] => none
  | c :: cs =>
    match rsplitLast sep cs with
    | some (a, b) => some (c :: a, b)
    | none => if c = sep then some ([], cs) else none

/-- `isPre pat s`: `pat` is a prefix of `s`. -/
def isPre : List Char → List Char → Bool
  | [], _ => true
  | _ :: _, [] => false
  | p :: ps, c :: cs => p = c && isPre ps cs

/-- `hasPat pat s`: `pat` occurs as a contiguous substring of `s`. -/
def hasPat (pat : List Char) : List Char → Bool
  | [] => pat.isEmpty
  | c :: cs => isPre pat (c :: cs) || hasPat pat cs

/-- The suffixes of `s` that follow each occurrence of `pat` in `s`. -/
def tailsAfter (pat : List Char) : List Char → List (List Char)
  | [] => []
  | c :: cs =>
    (if isPre pat (c :: cs) then [(c :: cs).drop pat.length] else []) ++ tailsAfter pat cs

/-- The replacement values of the `baseurl=` rewrites in a rendered text: for
each occurrence of `|baseurl=` (which in the generated sed commands marks
exactly the replacement side of a substitution, since every match side starts
with `|^`), the text up to the following `|`. -/
def rewrittenBaseurlValues (s : List Char) : List (List Char) :=
  (tailsAfter ("|baseurl=".data) s).map (List.takeWhile (fun c => c ≠ '|'))

/-- Lexicographic (codepoint) order on char lists, as Python compares `str`. -/
def charListLE : List Char → List Char → Bool
  | [], _ => true
  | _ :: _, [] => false
  | a :: as, b :: bs => if a = b then charListLE as bs else decide (a < b)

/-- Python string `<=`, at the codepoint level. -/
def strLE (a b : String) : Bool := charListLE a.data b.data

/-- Insert into a `strLE`-sorted list. -/
def insertSorted (x : String) : List String → List String
  | [] => [x]
  | y :: ys => if strLE x y then x :: y :: ys else y :: insertSorted x ys

/-- Python `sorted` on strings (insertion sort; order is what matters). -/
def sortStrings : List String → List String
  | [] => []
  | x :: xs => insertSorted x (sortStrings xs)

/-! ## Data model: `DistroConfig` and `DISTRO_REGISTRY` -/

/-- Container image metadata and mirror rewrites for a distro
(`DistroConfig` in the source; `docker_path : str | None`). -/
structure DistroConfig where
  base : String
  baseurl : String
  proxyurl : String
  pattern : String
  enable_crb : Bool := true
  enable_rpmfusion : Bool := true
  enable_epel : Bool := true
  docker_path : Option String := none
deriving DecidableEq, Repr

def rockyConfig : DistroConfig :=
  { base := "rockylinux"
    baseurl := "http://dl.rockylinux.org/$contentdir"
    proxyurl := "https://mirrors.ustc.edu.cn/rocky"
    pattern := "/etc/yum.repos.d/rocky*.repo /etc/yum.repos.d/Rocky*.repo"
    docker_path := some "quay.io/rockylinux/rockylinux" }

def almaConfig : DistroConfig :=
  { base := "almalinux"
    baseurl := "https://repo.almalinux.org"
    proxyurl := "https://mirrors.aliyun.com"
    pattern := "/etc/yum.repos.d/almalinux*.repo" }

def centosConfig : DistroConfig :=
  { base := "centos"
    baseurl := "http://mirror.centos.org/"
    proxyurl := "https://mirrors.ustc.edu.cn/centos-vault/"
    pattern := "/etc/yum.repos.d/CentOS-*.repo"
    enable_crb := false }

/-- The registry, in source (insertion) order, as an association list. -/
def DISTRO_REGISTRY : List (String × DistroConfig) :=
  [("rockylinux", rockyConfig), ("almalinux", almaConfig), ("centos", centosConfig)]

/-! ## `parse_image_reference` -/

/-- `parse_image_reference`: split `image` into `(distro, version)` at the
last colon (Python `rsplit(":", 1)`), strip and lowercase the distro, strip
the version; exit status 2 when there is no colon (`":" not in image`) or
either part is empty after stripping. -/
def parse_image_reference (image : String) : Except Nat (String × String) :=
  match rsplitLast ':' image.data with
  | none => .error 2
  | some (d, v) =>
    let distro := (pyStrip d).map Char.toLower
    let version := pyStrip v
    if distro = [] || version = [] then .error 2
    else .ok (String.mk distro, String.mk version)

/-! ## `extract_major_version` -/

/-- `extract_major_version`: try the separators `.`, `-`, `_` in that fixed
order; the candidate is the part of `version` before the first occurrence of
the first separator that occurs at all (else the whole string); keep the
candidate's digit characters, falling back to the candidate when none. -/
def extract_major_version (version : String) : String :=
  let vs := version.data
  let candidate :=
    if vs.contains '.' then splitHead '.' vs
    else if vs.contains '-' then splitHead '-' vs
    else if vs.contains '_' then splitHead '_' vs
    else vs
  let digits := candidate.filter Char.isDigit
  if digits.isEmpty then String.mk candidate else String.mk digits

/-! ## `build_run_command` -/

/-- First command: `shopt -s nullglob`. -/
def shopt_command : String := "shopt -s nullglob"

/-- The base substitution (`sed_base` in the source): comment `mirrorlist=`
lines and rewrite `baseurl=` from the configured upstream to the resolved
mirror, in place over the config's glob pattern. -/
def sed_base (cfg : DistroConfig) (proxyurl : String) : String :=
  "sed -e \x27s|^mirrorlist=|#mirrorlist=|g\x27         " ++
  "-e \x27s|^#\\? \\?baseurl=" ++ cfg.baseurl ++ "|baseurl=" ++ proxyurl ++
  "|g\x27         " ++ "-i.bak " ++ cfg.pattern

/-- Ensure the `dnf` front-end is present. -/
def dnf_presence_command : String :=
  "(command -v dnf >/dev/null 2>&1 || (yum install -y dnf && hash -r))"

/-- RPM Fusion free release-package URL for a major version. -/
def rpmfusion_free (major_version : String) : String :=
  "https://mirrors.ustc.edu.cn/rpmfusion/free/el/" ++
  "rpmfusion-free-release-" ++ major_version ++ ".noarch.rpm"

/-- RPM Fusion non-free release-package URL for a major version. -/
def rpmfusion_nonfree (major_version : String) : String :=
  "https://mirrors.ustc.edu.cn/rpmfusion/nonfree/el/" ++
  "rpmfusion-nonfree-release-" ++ major_version ++ ".noarch.rpm"

/-- Install the two RPM Fusion release packages. -/
def rpmfusion_install_command (major_version : String) : String :=
  "dnf install -y         " ++ rpmfusion_free major_version ++
  "         " ++ rpmfusion_nonfree major_version

/-- Guarded CRB enable step. -/
def crb_command : String :=
  "if command -v crb >/dev/null 2>&1; then crb enable; fi"

/-- Rewrite the RPM Fusion repo files to the fixed RPM Fusion mirror. -/
def rpmfusion_sed_command : String :=
  "sed -e \x27s|^metalink=|#metalink=|g\x27         " ++
  "-e \x27s|^#baseurl=http://download1.rpmfusion.org|baseurl=" ++
  "https://mirrors.ustc.edu.cn/rpmfusion" ++ "|g\x27         " ++
  "-i.bak /etc/yum.repos.d/rpmfusion*.repo"

/-- Rewrite the EPEL main and testing repo files to the fixed EPEL mirror
(matching either of two upstream URL forms). -/
def epel_sed_command : String :=
  "sed -e \x27s|^metalink=|#metalink=|g\x27         " ++
  "-e \x27s|^#baseurl=https\\?://download.fedoraproject.org/pub/epel/|baseurl=" ++
  "https://mirrors.ustc.edu.cn/epel/" ++ "|g\x27         " ++
  "-e \x27s|^#baseurl=https\\?://download.example/pub/epel/|baseurl=" ++
  "https://mirrors.ustc.edu.cn/epel/" ++ "|g\x27         " ++
  "-i.bak         /etc/yum.repos.d/epel\x7b,-testing\x7d.repo"

/-- Final cache-clean step. -/
def clean_command : String := "dnf clean all"

/-- The ordered command list built by `build_run_command`, mirroring the
source's sequential conditional `commands.append` calls. -/
def run_commands (cfg : DistroConfig) (version proxyurl : String) : List String :=
  let major_version := extract_major_version version
  let commands := [shopt_command, sed_base cfg proxyurl, dnf_presence_command]
  let commands :=
    if cfg.enable_rpmfusion then commands ++ [rpmfusion_install_command major_version]
    else commands
  let commands := if cfg.enable_crb then commands ++ [crb_command] else commands
  let commands :=
    if cfg.enable_rpmfusion then commands ++ [rpmfusion_sed_command] else commands
  let commands := if cfg.enable_epel then commands ++ [epel_sed_command] else commands
  commands ++ [clean_command]

/-- `build_run_command`: `"RUN " + " &&     ".join(commands)`. -/
def build_run_command (cfg : DistroConfig) (version proxyurl : String) : String :=
  "RUN " ++ String.intercalate " &&     " (run_commands cfg version proxyurl)

/-! ## `render_dockerfile` -/

/-- Python `a or b` on an optional string: `none` and `""` are falsy. -/
def py_or (m : Option String) (dflt : String) : String :=
  match m with
  | none => dflt
  | some s => if s = "" then dflt else s

/-- The image reference: `docker_path` when present and truthy, else `base`,
then a colon and the version tag. -/
def base_image (cfg : DistroConfig) (version : String) : String :=
  match cfg.docker_path with
  | some p => if p = "" then cfg.base ++ ":" ++ version else p ++ ":" ++ version
  | none => cfg.base ++ ":" ++ version

/-- The sorted, comma-joined list of supported distro names used in the
unsupported-distro error message: `", ".join(sorted(DISTRO_REGISTRY))`. -/
def supported_list : String :=
  String.intercalate ", " (sortStrings (DISTRO_REGISTRY.map Prod.fst))

/-- The unsupported-distro error message. -/
def unsupported_message (distro : String) : String :=
  "Error: unsupported distro \x27" ++ distro ++ "\x27. Supported: " ++ supported_list

/-- `render_dockerfile`: registry lookup (exit status 3 and the supported
list on a miss), mirror-override resolution via Python `or`, then the
three-line document. -/
def render_dockerfile (distro version : String) (mirror_override : Option String) :
    Except (Nat × String) String :=
  match List.lookup distro DISTRO_REGISTRY with
  | none => .error (3, unsupported_message distro)
  | some cfg =>
    let proxyurl := py_or mirror_override cfg.proxyurl
    let run_line := build_run_command cfg version proxyurl
    .ok ("FROM " ++ base_image cfg version ++
         "\nLABEL maintainer=\"DawnMagnet\"\n" ++ run_line ++ "\n")

/-- The rendered text of a successful render (`""` on error); used to state
properties of the rendered output. -/
def renderOk (distro version : String) (mirror_override : Option String) : String :=
  match render_dockerfile distro version mirror_override with
  | .ok s => s
  | .error _ => ""


/-- The head character of a string, used for cheap disequalities. -/
def firstChar (s : String) : Option Char := s.data.head?

/-- Number of newline characters in a string. -/
def nlCount (s : String) : Nat := s.data.count '\n'

/-- Modelled from the claim's wording (C1): the candidate is the substring of
`v` before the first `.` when `.` occurs, else before the first `-` when `-`
occurs, else before the first `_` when `_` occurs, else `v` itself; the
result is the candidate's digit characters in order, unless that digit
string is empty, in which case the candidate unchanged. -/
def extract_major_version_spec (v : String) : String :=
  let candidate :=
    if v.data.contains '.' then v.data.takeWhile (fun c => c ≠ '.')
    else if v.data.contains '-' then v.data.takeWhile (fun c => c ≠ '-')
    else if v.data.contains '_' then v.data.takeWhile (fun c => c ≠ '_')
    else v.data
  let ds := candidate.filter Char.isDigit
  if ds.isEmpty then String.mk candidate else String.mk ds

/-! ## Helper lemmas -/

theorem splitHead_eq_takeWhile (sep : Char) (s : List Char) :
    splitHead sep s = s.takeWhile (fun c => c ≠ sep) := by
  induction s with
  | nil => rfl
  | cons c cs ih =>
    by_cases h : c = sep <;> simp [splitHead, List.takeWhile_cons, h, ih]

theorem rsplitLast_eq_none (sep : Char) (l : List Char) (h : sep ∉ l) :
    rsplitLast sep l = none := by
  induction l with
  | nil => rfl
  | cons c cs ih =>
    have hc : ¬ c = sep := fun e => h (e ▸ List.mem_cons_self c cs)
    have hcs : sep ∉ cs := fun e => h (List.mem_cons_of_mem c e)
    simp [rsplitLast, ih hcs, hc]

theorem rsplitLast_append_last (sep : Char) (a b : List Char) (h : sep ∉ b) :
    rsplitLast sep (a ++ sep :: b) = some (a, b) := by
  induction a with
  | nil => simp [rsplitLast, rsplitLast_eq_none sep b h]
  | cons c cs ih => simp [rsplitLast, ih]

theorem hasPat_append_right (pat a b : List Char) (h : hasPat pat b = true) :
    hasPat pat (a ++ b) = true := by
  induction a with
  | nil => simpa using h
  | cons c cs ih => simp [hasPat, ih]

theorem ne_of_firstChar {a b : String} (h : firstChar a ≠ firstChar b) : a ≠ b :=
  fun e => h (e ▸ rfl)

theorem firstChar_sed_base (cfg : DistroConfig) (p : String) :
    firstChar (sed_base cfg p) = some 's' := rfl

theorem firstChar_rpmfusion_install (m : String) :
    firstChar (rpmfusion_install_command m) = some 'd' := rfl

/-- The command list in front-concatenated form: the fixed three opening
steps, then the optional blocks in their fixed order, then the cache clean. -/
theorem run_commands_eq (cfg : DistroConfig) (v p : String) :
    run_commands cfg v p =
      [shopt_command, sed_base cfg p, dnf_presence_command] ++
      (if cfg.enable_rpmfusion then [rpmfusion_install_command (extract_major_version v)] else []) ++
      (if cfg.enable_crb then [crb_command] else []) ++
      (if cfg.enable_rpmfusion then [rpmfusion_sed_command] else []) ++
      (if cfg.enable_epel then [epel_sed_command] else []) ++
      [clean_command] := by
  unfold run_commands
  cases h1 : cfg.enable_rpmfusion <;> cases h2 : cfg.enable_crb <;>
    cases h3 : cfg.enable_epel <;> simp [h1, h2, h3]

theorem crb_ne_sed_base (cfg : DistroConfig) (p : String) :
    crb_command ≠ sed_base cfg p :=
  ne_of_firstChar (by rw [firstChar_sed_base]; decide)

theorem crb_ne_rpmfusion_install (m : String) :
    crb_command ≠ rpmfusion_install_command m :=
  ne_of_firstChar (by rw [firstChar_rpmfusion_install]; decide)

/-- The CRB step appears in the command list exactly when `enable_crb` is set. -/
theorem crb_mem_run_commands_iff (cfg : DistroConfig) (v p : String) :
    crb_command ∈ run_commands cfg v p ↔ cfg.enable_crb = true := by
  rw [run_commands_eq]
  cases h2 : cfg.enable_crb <;>
    simp [crb_ne_sed_base cfg p, crb_ne_rpmfusion_install (extract_major_version v),
      (by decide : crb_command ≠ shopt_command),
      (by decide : crb_command ≠ dnf_presence_command),
      (by decide : crb_command ≠ rpmfusion_sed_command),
      (by decide : crb_command ≠ epel_sed_command),
      (by decide : crb_command ≠ clean_command)]

theorem intercalate_four (s a b c d : String) :
    String.intercalate s [a, b, c, d] = a ++ s ++ b ++ s ++ c ++ s ++ d := rfl

theorem intercalate_five (s a b c d e : String) :
    String.intercalate s [a, b, c, d, e] =
      a ++ s ++ b ++ s ++ c ++ s ++ d ++ s ++ e := rfl

theorem intercalate_six (s a b c d e f : String) :
    String.intercalate s [a, b, c, d, e, f] =
      a ++ s ++ b ++ s ++ c ++ s ++ d ++ s ++ e ++ s ++ f := rfl

theorem intercalate_seven (s a b c d e f g : String) :
    String.intercalate s [a, b, c, d, e, f, g] =
      a ++ s ++ b ++ s ++ c ++ s ++ d ++ s ++ e ++ s ++ f ++ s ++ g := rfl

theorem intercalate_eight (s a b c d e f g h : String) :
    String.intercalate s [a, b, c, d, e, f, g, h] =
      a ++ s ++ b ++ s ++ c ++ s ++ d ++ s ++ e ++ s ++ f ++ s ++ g ++ s ++ h := rfl

theorem nlCount_append (a b : String) : nlCount (a ++ b) = nlCount a + nlCount b := by
  simp [nlCount, String.data_append, List.count_append]

/-- The extracted major version only uses characters of the input. -/
theorem extract_data_sublist (v : String) :
    (extract_major_version v).data.Sublist v.data := by
  have key : ∀ cand : List Char, cand.Sublist v.data →
      (if (cand.filter Char.isDigit).isEmpty then String.mk cand
       else String.mk (cand.filter Char.isDigit)).data.Sublist v.data := by
    intro cand hc
    split
    · exact hc
    · exact (List.filter_sublist cand).trans hc
  unfold extract_major_version
  refine key _ ?_
  split
  · rw [splitHead_eq_takeWhile]; exact List.takeWhile_sublist _
  · split
    · rw [splitHead_eq_takeWhile]; exact List.takeWhile_sublist _
    · split
      · rw [splitHead_eq_takeWhile]; exact List.takeWhile_sublist _
      · exact List.Sublist.refl _

theorem nlCount_extract (v : String) (hv : nlCount v = 0) :
    nlCount (extract_major_version v) = 0 :=
  Nat.le_zero.mp (hv ▸ (extract_data_sublist v).count_le '\n')

theorem nlCount_py_or (m : Option String) (dflt : String) (hd : nlCount dflt = 0)
    (hm : ∀ s, m = some s → nlCount s = 0) : nlCount (py_or m dflt) = 0 := by
  cases m with
  | none => simpa [py_or] using hd
  | some s =>
    by_cases h : s = "" <;> simp [py_or, h, hd]
    exact hm s rfl

set_option maxRecDepth 8000 in
theorem nlCount_build_run (cfg : DistroConfig) (v p : String)
    (hb : nlCount cfg.baseurl = 0) (hpat : nlCount cfg.pattern = 0)
    (hv : nlCount v = 0) (hp : nlCount p = 0) :
    nlCount (build_run_command cfg v p) = 0 := by
  have hmv := nlCount_extract v hv
  rw [build_run_command, run_commands_eq]
  cases h1 : cfg.enable_rpmfusion <;> cases h2 : cfg.enable_crb <;>
    cases h3 : cfg.enable_epel <;>
    simp only [h1, h2, h3, if_true, if_false, Bool.false_eq_true, ite_true, ite_false,
      List.append_nil, List.nil_append, List.cons_append, List.singleton_append] <;>
    first
      | rw [intercalate_eight] | rw [intercalate_seven] | rw [intercalate_six]
      | rw [intercalate_five] | rw [intercalate_four]
  all_goals
    simp only [nlCount_append, sed_base, rpmfusion_install_command, rpmfusion_free,
      rpmfusion_nonfree, hb, hpat, hp, hmv]
  all_goals decide

/-! ## Claim theorems -/

/-- C1: `extract_major_version` computes exactly the claimed function —
separator priority `.`, `-`, `_`, candidate before the first occurrence of
the chosen separator, digit filtering with fallback — and in particular maps
`"8" ↦ "8"`, `"8.5" ↦ "8"`, `"9-stream" ↦ "9"`, `"latest" ↦ "latest"`. -/
theorem claimC1 :
    (∀ v : String, extract_major_version v = extract_major_version_spec v)
    ∧ extract_major_version "8" = "8"
    ∧ extract_major_version "8.5" = "8"
    ∧ extract_major_version "9-stream" = "9"
    ∧ extract_major_version "latest" = "latest" := by
  refine ⟨fun v => ?_, by decide, by decide, by decide, by decide⟩
  unfold extract_major_version extract_major_version_spec
  simp only [splitHead_eq_takeWhile]

/-- C5: `parse_image_reference "rockylinux:8"` succeeds as
`("rockylinux", "8")`; any input without a colon, and any input whose
distro part or version part is empty after trimming, aborts with exit
status 2 (for instance `":8"` and `"rockylinux:"`). -/
theorem claimC5 :
    parse_image_reference "rockylinux:8" = .ok ("rockylinux", "8")
    ∧ (∀ s : String, ':' ∉ s.data → parse_image_reference s = .error 2)
    ∧ (∀ (s : String) (d v : List Char), rsplitLast ':' s.data = some (d, v) →
        (pyStrip d = [] ∨ pyStrip v = []) → parse_image_reference s = .error 2)
    ∧ parse_image_reference ":8" = .error 2
    ∧ parse_image_reference "rockylinux:" = .error 2 := by
  refine ⟨rfl, fun s h => ?_, fun s d v h he => ?_, rfl, rfl⟩
  · simp [parse_image_reference, rsplitLast_eq_none ':' s.data h]
  · rcases he with he | he <;> simp [parse_image_reference, h, he]

/-- Witness for C5 at the concrete colon-free input `"nocolon"`. -/
theorem claimC5_witness : parse_image_reference "nocolon" = .error 2 :=
  claimC5.2.1 "nocolon" (by decide)

/-- C9 (implicit): inputs with a colon are split at the LAST colon — the
distro is everything before it, trimmed and lowercased, and the version is
everything after it, trimmed with case preserved; `"a:b:c"` parses as
`("a:b", "c")`. -/
theorem claimC9 :
    (∀ a b : List Char, ':' ∉ b →
       parse_image_reference (String.mk (a ++ ':' :: b)) =
         (if (pyStrip a).map Char.toLower = [] ∨ pyStrip b = [] then .error 2
          else .ok (String.mk ((pyStrip a).map Char.toLower), String.mk (pyStrip b))))
    ∧ parse_image_reference "a:b:c" = .ok ("a:b", "c") := by
  refine ⟨fun a b h => ?_, rfl⟩
  have hd : (String.mk (a ++ ':' :: b)).data = a ++ ':' :: b := rfl
  by_cases h1 : (pyStrip a).map Char.toLower = [] <;>
    by_cases h2 : pyStrip b = [] <;>
    simp [parse_image_reference, hd, rsplitLast_append_last ':' a b h, h1, h2]

/-- Witness for C9 at the concrete input `"a:b" ++ ":" ++ "c"`. -/
theorem claimC9_witness :
    parse_image_reference (String.mk (['a', ':', 'b'] ++ ':' :: ['c'])) =
      .ok ("a:b", "c") := by
  have h := claimC9.1 ['a', ':', 'b'] ['c'] (by decide)
  rw [h]; rfl

/-- C10 (implicit): an empty-string mirror override is falsy in Python's
`or`, so rendering with override `""` is byte-identical to rendering with no
override, for every distro and version. -/
theorem claimC10 : ∀ distro version : String,
    render_dockerfile distro version (some "") =
      render_dockerfile distro version none := by
  intro d v
  unfold render_dockerfile
  cases List.lookup d DISTRO_REGISTRY <;> simp [py_or]

/-- C8: registry invariants — keys are lowercase names, keys are pairwise
distinct (exactly one config per key), and every string field except the
optional `docker_path` image-path override is non-empty (the feature flags
are booleans and always present). -/
theorem claimC8 :
    (DISTRO_REGISTRY.map Prod.fst).Nodup
    ∧ (∀ p ∈ DISTRO_REGISTRY, (p.1.data.all fun c => c.isLower) = true)
    ∧ (∀ p ∈ DISTRO_REGISTRY,
        p.2.base ≠ "" ∧ p.2.baseurl ≠ "" ∧ p.2.proxyurl ≠ "" ∧ p.2.pattern ≠ "") := by
  decide

/-- C3: for every registered config and version the compound command is
exactly the fixed ordered step sequence — shopt, base substitution, ensure
dnf, then (flag-gated, in order) RPM Fusion install, guarded CRB enable,
RPM Fusion substitution, EPEL substitution, and the final cache clean — all
joined with the success-chaining `&&` operator. -/
theorem claimC3 : ∀ name cfg, List.lookup name DISTRO_REGISTRY = some cfg →
    ∀ v p : String,
    build_run_command cfg v p =
      "RUN " ++ String.intercalate " &&     "
        ([shopt_command, sed_base cfg p, dnf_presence_command] ++
         (if cfg.enable_rpmfusion then
            [rpmfusion_install_command (extract_major_version v)] else []) ++
         (if cfg.enable_crb then [crb_command] else []) ++
         (if cfg.enable_rpmfusion then [rpmfusion_sed_command] else []) ++
         (if cfg.enable_epel then [epel_sed_command] else []) ++
         [clean_command]) := by
  intro name cfg h v p
  rw [build_run_command, run_commands_eq]

/-- Witness for C3 at the registered distro `rockylinux`, version `"8"`. -/
theorem claimC3_witness :
    build_run_command rockyConfig "8" "https://m" =
      "RUN " ++ String.intercalate " &&     "
        ([shopt_command, sed_base rockyConfig "https://m", dnf_presence_command] ++
         (if rockyConfig.enable_rpmfusion then
            [rpmfusion_install_command (extract_major_version "8")] else []) ++
         (if rockyConfig.enable_crb then [crb_command] else []) ++
         (if rockyConfig.enable_rpmfusion then [rpmfusion_sed_command] else []) ++
         (if rockyConfig.enable_epel then [epel_sed_command] else []) ++
         [clean_command]) :=
  claimC3 "rockylinux" rockyConfig rfl "8" "https://m"

/-- C7: the `centos` registry entry has `enable_crb = false` and its command
list never contains the guarded CRB step, for any version and mirror; the
`rockylinux` and `almalinux` entries have `enable_crb = true` and their
command lists always contain it. -/
theorem claimC7 : ∀ v p : String,
    (∀ cfg, List.lookup "centos" DISTRO_REGISTRY = some cfg →
      cfg.enable_crb = false ∧ crb_command ∉ run_commands cfg v p)
    ∧ (∀ cfg, List.lookup "rockylinux" DISTRO_REGISTRY = some cfg →
      cfg.enable_crb = true ∧ crb_command ∈ run_commands cfg v p)
    ∧ (∀ cfg, List.lookup "almalinux" DISTRO_REGISTRY = some cfg →
      cfg.enable_crb = true ∧ crb_command ∈ run_commands cfg v p) := by
  intro v p
  refine ⟨fun cfg h => ?_, fun cfg h => ?_, fun cfg h => ?_⟩
  · have e : cfg = centosConfig := by
      have h2 : some centosConfig = some cfg := by rw [← h]; rfl
      exact (Option.some.inj h2).symm
    subst e
    exact ⟨rfl, fun hm =>
      absurd ((crb_mem_run_commands_iff centosConfig v p).mp hm) (by decide)⟩
  · have e : cfg = rockyConfig := by
      have h2 : some rockyConfig = some cfg := by rw [← h]; rfl
      exact (Option.some.inj h2).symm
    subst e
    exact ⟨rfl, (crb_mem_run_commands_iff rockyConfig v p).mpr rfl⟩
  · have e : cfg = almaConfig := by
      have h2 : some almaConfig = some cfg := by rw [← h]; rfl
      exact (Option.some.inj h2).symm
    subst e
    exact ⟨rfl, (crb_mem_run_commands_iff almaConfig v p).mpr rfl⟩

/-- Witness for C7 at the registered configs, version `"8"`. -/
theorem claimC7_witness :
    (centosConfig.enable_crb = false
      ∧ crb_command ∉ run_commands centosConfig "8" "https://m")
    ∧ (rockyConfig.enable_crb = true
      ∧ crb_command ∈ run_commands rockyConfig "8" "https://m")
    ∧ (almaConfig.enable_crb = true
      ∧ crb_command ∈ run_commands almaConfig "8" "https://m") :=
  ⟨(claimC7 "8" "https://m").1 centosConfig rfl,
   (claimC7 "8" "https://m").2.1 rockyConfig rfl,
   (claimC7 "8" "https://m").2.2 almaConfig rfl⟩

/-- C6: for every distro name missing from the registry, rendering aborts
with exit status 3, and the error message contains every registered distro
name. -/
theorem claimC6 : ∀ distro : String, List.lookup distro DISTRO_REGISTRY = none →
    ∀ (version : String) (m : Option String),
    render_dockerfile distro version m = .error (3, unsupported_message distro)
    ∧ ∀ p ∈ DISTRO_REGISTRY,
        hasPat p.1.data (unsupported_message distro).data = true := by
  intro d h v m
  constructor
  · simp [render_dockerfile, h]
  · intro p hp
    have hmsg : (unsupported_message d).data =
        "Error: unsupported distro \x27".data ++
          (d.data ++ ("\x27. Supported: " ++ supported_list).data) := by
      simp [unsupported_message, String.data_append, List.append_assoc]
    rw [hmsg]
    apply hasPat_append_right
    apply hasPat_append_right
    simp only [DISTRO_REGISTRY, List.mem_cons, List.not_mem_nil, or_false] at hp
    rcases hp with rfl | rfl | rfl <;> decide

/-- Witness for C6 at the unregistered distro name `"debian"`. -/
theorem claimC6_witness :
    render_dockerfile "debian" "12" none = .error (3, unsupported_message "debian") :=
  (claimC6 "debian" rfl "12" none).1

theorem lookup_cases (name : String) (cfg : DistroConfig)
    (h : List.lookup name DISTRO_REGISTRY = some cfg) :
    cfg = rockyConfig ∨ cfg = almaConfig ∨ cfg = centosConfig := by
  simp only [DISTRO_REGISTRY] at h
  by_cases h1 : (name == "rockylinux") = true
  · simp [List.lookup, h1] at h
    exact Or.inl h.symm
  · by_cases h2 : (name == "almalinux") = true
    · simp [List.lookup, h1, h2] at h
      exact Or.inr (Or.inl h.symm)
    · by_cases h3 : (name == "centos") = true
      · simp [List.lookup, h1, h2, h3] at h
        exact Or.inr (Or.inr h.symm)
      · simp [List.lookup, h1, h2, h3] at h

theorem render_eq_of_lookup (name : String) (cfg : DistroConfig)
    (h : List.lookup name DISTRO_REGISTRY = some cfg) (v : String) (m : Option String) :
    render_dockerfile name v m =
      .ok ("FROM " ++ base_image cfg v ++ "\nLABEL maintainer=\"DawnMagnet\"\n" ++
           build_run_command cfg v (py_or m cfg.proxyurl) ++ "\n") := by
  unfold render_dockerfile
  rw [h]

theorem renderOk_eq_of_lookup (name : String) (cfg : DistroConfig)
    (h : List.lookup name DISTRO_REGISTRY = some cfg) (v : String) (m : Option String) :
    renderOk name v m =
      "FROM " ++ base_image cfg v ++ "\nLABEL maintainer=\"DawnMagnet\"\n" ++
        build_run_command cfg v (py_or m cfg.proxyurl) ++ "\n" := by
  unfold renderOk
  rw [render_eq_of_lookup name cfg h v m]

set_option maxRecDepth 100000 in
/-- C4: for every registered distro and version the rendered document is the
image reference line (image-path override when present, else the base name,
colon, version), the maintainer label line, and the compound command line,
each newline-terminated — exactly three newlines when the version and
override contain none — and concretely `rockylinux:8` with no override
starts with `FROM quay.io/rockylinux/rockylinux:8` and contains both RPM
Fusion release-package URLs built with major version `8`. -/
theorem claimC4 :
    (∀ name cfg, List.lookup name DISTRO_REGISTRY = some cfg →
       ∀ (v : String) (m : Option String),
       render_dockerfile name v m =
         .ok ("FROM " ++ base_image cfg v ++ "\nLABEL maintainer=\"DawnMagnet\"\n" ++
              build_run_command cfg v (py_or m cfg.proxyurl) ++ "\n")
       ∧ (nlCount v = 0 → (∀ s, m = some s → nlCount s = 0) →
           nlCount (renderOk name v m) = 3))
    ∧ renderOk "rockylinux" "8" none =
        "FROM quay.io/rockylinux/rockylinux:8" ++ "\nLABEL maintainer=\"DawnMagnet\"\n" ++
          build_run_command rockyConfig "8" rockyConfig.proxyurl ++ "\n"
    ∧ hasPat
        "https://mirrors.ustc.edu.cn/rpmfusion/free/el/rpmfusion-free-release-8.noarch.rpm".data
        (renderOk "rockylinux" "8" none).data = true
    ∧ hasPat
        "https://mirrors.ustc.edu.cn/rpmfusion/nonfree/el/rpmfusion-nonfree-release-8.noarch.rpm".data
        (renderOk "rockylinux" "8" none).data = true := by
  refine ⟨?_, rfl, by decide, by decide⟩
  intro name cfg h v m
  refine ⟨render_eq_of_lookup name cfg h v m, fun hv hm => ?_⟩
  rw [renderOk_eq_of_lookup name cfg h v m]
  have hrun : nlCount (build_run_command cfg v (py_or m cfg.proxyurl)) = 0 := by
    rcases lookup_cases name cfg h with rfl | rfl | rfl <;>
      exact nlCount_build_run _ v _ (by decide) (by decide) hv
        (nlCount_py_or m _ (by decide) hm)
  have hbi : nlCount (base_image cfg v) = 0 := by
    rcases lookup_cases name cfg h with rfl | rfl | rfl
    · show nlCount ("quay.io/rockylinux/rockylinux" ++ ":" ++ v) = 0
      simp only [nlCount_append, hv]
      decide
    · show nlCount ("almalinux" ++ ":" ++ v) = 0
      simp only [nlCount_append, hv]
      decide
    · show nlCount ("centos" ++ ":" ++ v) = 0
      simp only [nlCount_append, hv]
      decide
  simp only [nlCount_append, hrun, hbi]
  decide

/-- Witness for C4 at the registered input `rockylinux:8`, no override. -/
theorem claimC4_witness :
    render_dockerfile "rockylinux" "8" none =
      .ok ("FROM " ++ base_image rockyConfig "8" ++ "\nLABEL maintainer=\"DawnMagnet\"\n" ++
           build_run_command rockyConfig "8" (py_or none rockyConfig.proxyurl) ++ "\n")
    ∧ nlCount (renderOk "rockylinux" "8" none) = 3 :=
  ⟨(claimC4.1 "rockylinux" rockyConfig rfl "8" none).1,
   (claimC4.1 "rockylinux" rockyConfig rfl "8" none).2 (by decide)
     (fun s hs => nomatch hs)⟩

set_option maxRecDepth 100000 in
/-- C2 counterexample: with the registered distro `rockylinux`, version
`"9"`, and the non-empty override `https://mirror.example.cn/rocky`, the
rendered recipe contains a substitution whose rewritten `baseurl=` value is
the fixed RPM Fusion mirror, which differs from the override — so not every
rewritten `baseurl=` value equals the override. -/
theorem claimC2_counterexample :
    "https://mirrors.ustc.edu.cn/rpmfusion".data ∈
      rewrittenBaseurlValues
        (renderOk "rockylinux" "9" (some "https://mirror.example.cn/rocky")).data
    ∧ ("https://mirrors.ustc.edu.cn/rpmfusion" : String) ≠
        "https://mirror.example.cn/rocky" :=
  ⟨by decide, by decide⟩

/-- C2 as amended: for every registered config, version, and non-empty
override, the override (not the default mirror) is the resolved mirror — the
rendered document embeds the command built with the override, and the base
substitution's rewritten `baseurl=` value is exactly the override — while
the RPM Fusion and EPEL substitution steps rewrite their `baseurl=` values
to fixed mirror roots that are independent of the override. -/
theorem claimC2_amended : ∀ name cfg, List.lookup name DISTRO_REGISTRY = some cfg →
    ∀ (v m : String), m ≠ "" →
    render_dockerfile name v (some m) =
      .ok ("FROM " ++ base_image cfg v ++ "\nLABEL maintainer=\"DawnMagnet\"\n" ++
           build_run_command cfg v m ++ "\n")
    ∧ sed_base cfg m ∈ run_commands cfg v m
    ∧ sed_base cfg m =
        ("sed -e \x27s|^mirrorlist=|#mirrorlist=|g\x27         " ++
         "-e \x27s|^#\\? \\?baseurl=" ++ cfg.baseurl ++ "|baseurl=") ++ m ++
        ("|g\x27         " ++ "-i.bak " ++ cfg.pattern)
    ∧ rpmfusion_sed_command ∈ run_commands cfg v m
    ∧ rewrittenBaseurlValues rpmfusion_sed_command.data =
        ["https://mirrors.ustc.edu.cn/rpmfusion".data]
    ∧ epel_sed_command ∈ run_commands cfg v m
    ∧ rewrittenBaseurlValues epel_sed_command.data =
        ["https://mirrors.ustc.edu.cn/epel/".data,
         "https://mirrors.ustc.edu.cn/epel/".data] := by
  intro name cfg h v m hm
  have hp : py_or (some m) cfg.proxyurl = m := by simp [py_or, hm]
  have hrender := render_eq_of_lookup name cfg h v (some m)
  rw [hp] at hrender
  refine ⟨hrender, ?_, by simp [sed_base, String.append_assoc], ?_, by decide, ?_, by decide⟩
  · rw [run_commands_eq]
    simp
  · rw [run_commands_eq]
    rcases lookup_cases name cfg h with rfl | rfl | rfl <;>
      simp [rockyConfig, almaConfig, centosConfig]
  · rw [run_commands_eq]
    rcases lookup_cases name cfg h with rfl | rfl | rfl <;>
      simp [rockyConfig, almaConfig, centosConfig]

/-- Witness for C2-amended at `rockylinux`, version `"9"`, override
`https://mirror.example.cn/rocky`. -/
theorem claimC2_amended_witness :
    sed_base rockyConfig "https://mirror.example.cn/rocky" ∈
      run_commands rockyConfig "9" "https://mirror.example.cn/rocky" :=
  (claimC2_amended "rockylinux" rockyConfig rfl "9" "https://mirror.example.cn/rocky"
      (by decide)).2.1

set_option maxRecDepth 100000 in
/-- C4 counterexample: for the registered distro `rockylinux` and the version
string `"8\nX"` (which contains a newline), the rendered document has four
newlines, not three — so the document is not exactly three newline-terminated
lines for every version string. -/
theorem claimC4_counterexample :
    nlCount (renderOk "rockylinux" "8\nX" none) = 4
    ∧ nlCount (renderOk "rockylinux" "8\nX" none) ≠ 3 :=
  ⟨by decide, by decide⟩
